import Mathlib

/-!
Verification of the session-management, flash-programming, reset and recovery
logic of `nrfjprog/device/nrf5x.py` (nRF5-universal-prog).

The Python module drives an external probe driver (`pynrfjprog.API`) by side
effect.  We embed each command as a pure function that returns the ordered
list of driver calls it issues (a trace of `Event`s) together with its outcome
(`none` for normal return, `some e` for the Python exception that escapes).
The outcomes of the external driver calls that the control flow inspects are
inputs to the embedding: the result of `read_device_version` is passed in as
an `Except ApiError Nat`, and memory reads/writes are mediated by a `Driver`
record with explicit state, so that both arbitrary fault-injecting drivers and
a faithful memory model can be instantiated.
-/

namespace Nrf5x

/-- `API.DeviceFamily`: the two device families the driver can speak. -/
inductive Family
  | nrf51
  | nrf52
deriving DecidableEq

/-- Error codes of `API.APIError`: the code only ever discriminates on
equality with `API.NrfjprogdllErr.WRONG_FAMILY_FOR_DEVICE`, so we model that
code as a distinguished constructor and every other code by its number. -/
inductive ErrCode
  | WRONG_FAMILY_FOR_DEVICE
  | OTHER (n : Nat)
deriving DecidableEq

/-- `API.APIError`: carries the error code inspected by `_setup`. -/
structure ApiError where
  err_code : ErrCode
deriving DecidableEq

/-- The four distinct probe-connect calls `_connect_to_emu` can issue. -/
inductive ConnectCall
  | withSnrSpeed (snr speed : Nat)
  | withSnr (snr : Nat)
  | withSpeed (speed : Nat)
  | noArgs
deriving DecidableEq

/-- One driver call, as observed at the `pynrfjprog.API` boundary. -/
inductive Event
  | openApi (fam : Family)
  | connectEmu (c : ConnectCall)
  | closeApi
  | readVersion
  | connectToDevice
  | readMem (addr len : Nat)
  | writeMem (addr : Nat) (data : List Nat) (flash : Bool)
  | writeU32 (addr val : Nat) (flash : Bool)
  | eraseAll
  | recoverOp
  | disconnectEmu
  | debugReset
  | pinReset
  | sysReset
  | go
deriving DecidableEq

/-- The Python exceptions that can escape a command in the modelled paths:
an `APIError` propagated from the version query, the `AssertionError`s of
`program` (not-erased, verify-failed), the unimplemented-erase asserts, the
`memwr` flash assert, and the `TypeError` raised inside `recover`.  Distinct
assertion messages are modelled as distinct constructors. -/
inductive CmdErr
  | apiError (e : ApiError)
  | notErased
  | verificationFailed
  | unimplemented
  | flashAssertion
  | typeError
deriving DecidableEq

/-- Python truthiness of an optional integer argument: `None` and `0` are
falsy, every other integer is truthy.  `args.snr` / `args.clockspeed` are
`None` when absent from the command line. -/
def truthy : Option Nat → Bool
  | none => false
  | some n => n != 0

/-- `NRF5x._connect_to_emu`: picks one of four driver connect calls from the
truthiness of `self.snr` and `self.clockspeed`. -/
def connect_to_emu (snr clockspeed : Option Nat) : ConnectCall :=
  if truthy snr && truthy clockspeed then
    ConnectCall.withSnrSpeed (snr.getD 0) (clockspeed.getD 0)
  else if truthy snr then
    ConnectCall.withSnr (snr.getD 0)
  else if truthy clockspeed then
    ConnectCall.withSpeed (clockspeed.getD 0)
  else
    ConnectCall.noArgs

/-- `NRF5x._setup`: open under NRF51, connect to the probe, query the device
version (`vr` is the outcome the driver produces for that query).  On an
`APIError` whose code is `WRONG_FAMILY_FOR_DEVICE` close the NRF51 handle,
re-open under NRF52 and reconnect with the same connect call; any other
`APIError` is re-raised.  On the surviving handle, `connect_to_device` is
issued and the resolved family returned.  The first component is the trace of
driver calls issued, including those before a raised error. -/
def setup (vr : Except ApiError Nat) (snr clockspeed : Option Nat) :
    List Event × Except ApiError Family :=
  let c := connect_to_emu snr clockspeed
  let t1 := [Event.openApi Family.nrf51, Event.connectEmu c, Event.readVersion]
  match vr with
  | Except.ok _ => (t1 ++ [Event.connectToDevice], Except.ok Family.nrf51)
  | Except.error e =>
    if e.err_code = ErrCode.WRONG_FAMILY_FOR_DEVICE then
      (t1 ++ [Event.closeApi, Event.openApi Family.nrf52, Event.connectEmu c,
              Event.connectToDevice],
       Except.ok Family.nrf52)
    else
      (t1, Except.error e)

/-- `NRF5x.cleanup`: disconnect from the emulator, then close the session. -/
def cleanupEvents : List Event := [Event.disconnectEmu, Event.closeApi]

/-- Recognises session-open events, for counting open handles in a trace. -/
def isOpenEvent : Event → Bool
  | Event.openApi _ => true
  | _ => false

/-- Recognises session-close events. -/
def isCloseEvent : Event → Bool
  | Event.closeApi => true
  | _ => false

/-- Recognises `write_u32` events, for counting word writes in a trace. -/
def isWriteU32 : Event → Bool
  | Event.writeU32 _ _ _ => true
  | _ => false

/-- Number of driver sessions opened in a trace. -/
def opens (tr : List Event) : Nat := tr.countP isOpenEvent

/-- Number of driver sessions closed in a trace. -/
def closes (tr : List Event) : Nat := tr.countP isCloseEvent

/-- One segment of the parsed hex image: a start address and its bytes
(`Hex.Hex` yields these; the parser itself is an external collaborator). -/
structure Segment where
  address : Nat
  data : List Nat
deriving DecidableEq

/-- The memory side of the probe driver, with explicit state `σ`:
`read s addr len` returns the bytes the driver hands back and the next state;
`write s addr data flash` is `api.write`.  Instantiations range from
fault-injecting stubs to the faithful memory model `memDriver`. -/
structure Driver (σ : Type) where
  read : σ → Nat → Nat → List Nat × σ
  write : σ → Nat → List Nat → Bool → σ

/-- The per-segment loop of `program(args)`: for each segment read the
destination range back, assert it is all `0xFF` (the comparison is against
`[0xFF] * len(read_data)`, exactly as in the source), write the segment with
the flash variant, and, when `verify` is set, re-read the range and assert it
equals the segment's data.  A failed assert aborts the whole loop.  Returns
the extended trace, the final driver state and the escaping error, if any. -/
def programSegments {σ : Type} (d : Driver σ) (verify : Bool) :
    List Segment → σ → List Event → List Event × σ × Option CmdErr
  | [], s, tr => (tr, s, none)
  | seg :: rest, s, tr =>
    let r1 := d.read s seg.address seg.data.length
    let tr1 := tr ++ [Event.readMem seg.address seg.data.length]
    if r1.1 = List.replicate r1.1.length 0xFF then
      let s2 := d.write r1.2 seg.address seg.data true
      let tr2 := tr1 ++ [Event.writeMem seg.address seg.data true]
      if verify then
        let r2 := d.read s2 seg.address seg.data.length
        let tr3 := tr2 ++ [Event.readMem seg.address seg.data.length]
        if r2.1 = seg.data then
          programSegments d verify rest r2.2 tr3
        else
          (tr3, r2.2, some CmdErr.verificationFailed)
      else
        programSegments d verify rest s2 tr2
    else
      (tr1, r1.2, some CmdErr.notErased)

/-- The per-segment loop of `verify(args)`: read each segment's range and
assert it equals the segment's data; no writes are issued. -/
def verifySegments {σ : Type} (d : Driver σ) :
    List Segment → σ → List Event → List Event × σ × Option CmdErr
  | [], s, tr => (tr, s, none)
  | seg :: rest, s, tr =>
    let r1 := d.read s seg.address seg.data.length
    let tr1 := tr ++ [Event.readMem seg.address seg.data.length]
    if r1.1 = seg.data then
      verifySegments d rest r1.2 tr1
    else
      (tr1, r1.2, some CmdErr.verificationFailed)

/-- Pointwise update of a memory by a write of `data` at `addr`. -/
def memWrite (s : Nat → Nat) (addr : Nat) (data : List Nat) : Nat → Nat :=
  fun a => if addr ≤ a ∧ a < addr + data.length then data.getD (a - addr) 0 else s a

/-- The faithful memory model of the driver: state is a byte-addressed
memory, `read` returns the `len` bytes starting at `addr`, `write` stores the
data.  Used for the round-trip property. -/
def memDriver : Driver (Nat → Nat) where
  read s addr len := ((List.range len).map fun i => s (addr + i), s)
  write s addr data _flash := memWrite s addr data

/-- The arguments of the `program` command that steer its control flow. -/
structure ProgramArgs where
  eraseall : Bool
  sectorserase : Bool
  sectorsanduicrerase : Bool
  verify : Bool
  debugreset : Bool
  pinreset : Bool
  systemreset : Bool
  snr : Option Nat
  clockspeed : Option Nat
deriving DecidableEq

/-- `_reset(nrf, args, default_sys_reset)`: dispatch on the reset flags to
exactly one (reset primitive, `go`) pair; with no flag set, `sys_reset` is
issued only when `default_sys_reset` holds, otherwise nothing happens. -/
def resetEvents (debugreset pinreset systemreset default_sys_reset : Bool) :
    List Event :=
  if debugreset then [Event.debugReset, Event.go]
  else if pinreset then [Event.pinReset, Event.go]
  else if systemreset || default_sys_reset then [Event.sysReset, Event.go]
  else []

/-- The part of `program(args)` after the erase step: segment loop, then
`_reset(nrf, args)` with `default_sys_reset` left `False`, then
`nrf.cleanup()`.  An escaping exception skips everything after it,
including the cleanup. -/
def programBody {σ : Type} (d : Driver σ) (a : ProgramArgs)
    (segs : List Segment) (s0 : σ) (tr : List Event) :
    List Event × Option CmdErr :=
  match programSegments d a.verify segs s0 tr with
  | (tr1, _, some e) => (tr1, some e)
  | (tr1, _, none) =>
    (tr1 ++ resetEvents a.debugreset a.pinreset a.systemreset false
        ++ cleanupEvents, none)

/-- `program(args)`: construct `NRF5x` (which runs `_setup`), run the
optional erase step (the sector-erase variants are `assert False` stubs),
then the segment loop, reset and cleanup of `programBody`. -/
def program_cmd {σ : Type} (vr : Except ApiError Nat) (d : Driver σ) (s0 : σ)
    (a : ProgramArgs) (segs : List Segment) : List Event × Option CmdErr :=
  match setup vr a.snr a.clockspeed with
  | (tr, Except.error e) => (tr, some (CmdErr.apiError e))
  | (tr, Except.ok _) =>
    if a.eraseall then
      programBody d a segs s0 (tr ++ [Event.eraseAll])
    else if a.sectorserase then
      (tr, some CmdErr.unimplemented)
    else if a.sectorsanduicrerase then
      (tr, some CmdErr.unimplemented)
    else
      programBody d a segs s0 tr

/-- `reset(args)`: construct `NRF5x`, call `_reset(nrf, args, True)` (so an
absent mode defaults to `sys_reset`), then `nrf.cleanup()`. -/
def reset_cmd (vr : Except ApiError Nat) (snr clockspeed : Option Nat)
    (debugreset pinreset systemreset : Bool) : List Event × Option CmdErr :=
  match setup vr snr clockspeed with
  | (tr, Except.error e) => (tr, some (CmdErr.apiError e))
  | (tr, Except.ok _) =>
    (tr ++ resetEvents debugreset pinreset systemreset true ++ cleanupEvents,
     none)

/-- `memwr(args)`: construct `NRF5x`; with `--flash` issue
`write_u32(addr, val, True)`; otherwise assert `addr >= 0x80000` (an
`AssertionError` escapes before any write) and issue
`write_u32(addr, val, False)`; then `nrf.cleanup()`. -/
def memwr_cmd (vr : Except ApiError Nat) (snr clockspeed : Option Nat)
    (flash : Bool) (addr val : Nat) : List Event × Option CmdErr :=
  match setup vr snr clockspeed with
  | (tr, Except.error e) => (tr, some (CmdErr.apiError e))
  | (tr, Except.ok _) =>
    if flash then
      (tr ++ [Event.writeU32 addr val true] ++ cleanupEvents, none)
    else if 0x80000 ≤ addr then
      (tr ++ [Event.writeU32 addr val false] ++ cleanupEvents, none)
    else
      (tr, some CmdErr.flashAssertion)

/-- The try-block of `recover(args)` as written in the source.  Its first
statement is `nrf._setup(args)`, which passes the extra positional argument
`args` to `NRF5x._setup` — a method whose only parameter is `self` — so the
call raises `TypeError` before the body of `_setup` runs: the try-block
issues no driver call and fails at its first statement.  (Had the call
succeeded, `nrf.api` would still be unset because `recover` constructs
`NRF5x` with `do_not_initialize_api = True` and the return value of `_setup`
is discarded, so `nrf.api.recover()` would raise `AttributeError`.) -/
def recover_primary : List Event × Option CmdErr := ([], some CmdErr.typeError)

/-- `recover(args)`: try the primary path (`_setup`, `api.recover`,
`cleanup`); on any exception fall back to opening directly under NRF52,
connecting the probe with `_connect_to_emu`, issuing `recover`, then
disconnecting and closing. -/
def recover_cmd (snr clockspeed : Option Nat) : List Event × Option CmdErr :=
  match recover_primary with
  | (tr, none) => (tr, none)
  | (tr, some _) =>
    (tr ++ [Event.openApi Family.nrf52,
            Event.connectEmu (connect_to_emu snr clockspeed),
            Event.recoverOp, Event.disconnectEmu, Event.closeApi],
     none)

/-- A fault-injecting driver whose reads always return `0x00` bytes: every
pre-write erased-check fails on it. -/
def zeroDriver : Driver Unit where
  read _ _ len := (List.replicate len 0, ())
  write s _ _ _ := s

/-- A fault-injecting driver whose reads always return `0xFF` bytes: every
erased-check passes, and every verify of data other than `0xFF` bytes
fails. -/
def ffDriver : Driver Unit where
  read _ _ len := (List.replicate len 0xFF, ())
  write s _ _ _ := s

/-- `program` arguments with every flag cleared and no connection
parameters. -/
def argsNoFlags : ProgramArgs :=
  ⟨false, false, false, false, false, false, false, none, none⟩

/-- Claim C1: when the first device-version query fails with the
`WRONG_FAMILY_FOR_DEVICE` error, `_setup` closes the NRF51 handle exactly
once, opens a new session under NRF52, reconnects the probe with the same
connect call chosen by the connection-parameter combination rule, attempts no
third family (exactly two opens occur), and issues `connect_to_device` last,
returning the NRF52 session. -/
theorem setup_wrong_family (snr clockspeed : Option Nat) :
    setup (Except.error ⟨ErrCode.WRONG_FAMILY_FOR_DEVICE⟩) snr clockspeed =
      ([Event.openApi Family.nrf51,
        Event.connectEmu (connect_to_emu snr clockspeed), Event.readVersion,
        Event.closeApi, Event.openApi Family.nrf52,
        Event.connectEmu (connect_to_emu snr clockspeed),
        Event.connectToDevice],
       Except.ok Family.nrf52) ∧
    closes (setup (Except.error ⟨ErrCode.WRONG_FAMILY_FOR_DEVICE⟩)
        snr clockspeed).1 = 1 ∧
    opens (setup (Except.error ⟨ErrCode.WRONG_FAMILY_FOR_DEVICE⟩)
        snr clockspeed).1 = 2 :=
  ⟨rfl, rfl, rfl⟩

/-- Claim C8: when the device-version query fails with an `APIError` whose
code is not `WRONG_FAMILY_FOR_DEVICE`, `_setup` re-raises that very error and
never opens a session under NRF52. -/
theorem setup_other_error (snr clockspeed : Option Nat) (n : Nat) :
    setup (Except.error ⟨ErrCode.OTHER n⟩) snr clockspeed =
      ([Event.openApi Family.nrf51,
        Event.connectEmu (connect_to_emu snr clockspeed), Event.readVersion],
       Except.error ⟨ErrCode.OTHER n⟩) ∧
    Event.openApi Family.nrf52 ∉
      (setup (Except.error ⟨ErrCode.OTHER n⟩) snr clockspeed).1 := by
  refine ⟨rfl, ?_⟩
  simp [setup, connect_to_emu]

/-- Claim C7, counterexample: a supplied serial number equal to `0` is a
"serial only" combination, but `_connect_to_emu` tests Python truthiness, so
it issues the no-argument connect call instead of the serial-only one. -/
theorem connect_snr_zero_counterexample :
    connect_to_emu (some 0) none ≠ ConnectCall.withSnr 0 ∧
    connect_to_emu (some 0) none = ConnectCall.noArgs := by
  exact ⟨by decide, by decide⟩

/-- Claim C7, amended: presence of a connection parameter is tested by Python
truthiness, so a supplied serial number or clock speed equal to `0` is
treated as absent; for nonzero (or absent) parameters each of the four
combinations invokes exactly the matching driver connect call. -/
theorem connect_matches_combination (snr clockspeed : Option Nat)
    (hs : ∀ n, snr = some n → n ≠ 0)
    (hc : ∀ n, clockspeed = some n → n ≠ 0) :
    connect_to_emu snr clockspeed =
      (match snr, clockspeed with
        | some s, some c => ConnectCall.withSnrSpeed s c
        | some s, none => ConnectCall.withSnr s
        | none, some c => ConnectCall.withSpeed c
        | none, none => ConnectCall.noArgs) ∧
    connect_to_emu (some 0) clockspeed = connect_to_emu none clockspeed ∧
    connect_to_emu snr (some 0) = connect_to_emu snr none := by
  rcases snr with _ | s <;> rcases clockspeed with _ | c <;>
    simp_all [connect_to_emu, truthy]

/-- Witness for `connect_matches_combination` at serial 3, clock speed 5. -/
theorem connect_matches_combination_witness :
    connect_to_emu (some 3) (some 5) = ConnectCall.withSnrSpeed 3 5 ∧
    connect_to_emu (some 3) (some 0) = connect_to_emu (some 3) none := by
  have h := connect_matches_combination (some 3) (some 5)
    (by intro n hn; cases hn; decide) (by intro n hn; cases hn; decide)
  exact ⟨h.1, h.2.2⟩

/-- Claim C3: in `recover(args)` the statement `nrf._setup(args)` passes an
extra positional argument to the zero-argument method `_setup`, raising
`TypeError` before any driver call, so the primary path never runs the
family-auto-detection sequence: every call of `recover` takes the fallback
path, opening directly under NRF52, connecting the probe, issuing `recover`,
disconnecting and closing, with no version query and no NRF51 session. -/
theorem recover_always_fallback (snr clockspeed : Option Nat) :
    recover_cmd snr clockspeed =
      ([Event.openApi Family.nrf52,
        Event.connectEmu (connect_to_emu snr clockspeed), Event.recoverOp,
        Event.disconnectEmu, Event.closeApi], none) ∧
    Event.readVersion ∉ (recover_cmd snr clockspeed).1 ∧
    Event.openApi Family.nrf51 ∉ (recover_cmd snr clockspeed).1 := by
  refine ⟨rfl, ?_, ?_⟩ <;> simp [recover_cmd, recover_primary]

/-- Claim C6: whenever `_setup` succeeds, the `reset` command issues exactly
one (reset primitive, `go`) pair, chosen from debug-reset, pin-reset and
system-reset, followed by the cleanup; when no reset flag is given the pair
is (system-reset, `go`), so the target is always left running. -/
theorem reset_cmd_one_pair (vr : Except ApiError Nat)
    (snr clockspeed : Option Nat) (dr pr sr : Bool)
    (h : ∃ f, (setup vr snr clockspeed).2 = Except.ok f) :
    ∃ pair,
      (reset_cmd vr snr clockspeed dr pr sr).1
          = (setup vr snr clockspeed).1 ++ pair ++ cleanupEvents ∧
      (pair = [Event.debugReset, Event.go] ∨
        pair = [Event.pinReset, Event.go] ∨
        pair = [Event.sysReset, Event.go]) ∧
      (dr = false → pr = false → sr = false →
        pair = [Event.sysReset, Event.go]) ∧
      (reset_cmd vr snr clockspeed dr pr sr).2 = none := by
  obtain ⟨f, hf⟩ := h
  refine ⟨resetEvents dr pr sr true, ?_, ?_, ?_, ?_⟩
  · rcases hset : setup vr snr clockspeed with ⟨tr, res⟩
    rw [hset] at hf
    cases res with
    | error e => simp at hf
    | ok g => simp [reset_cmd, hset]
  · cases dr <;> cases pr <;> cases sr <;> simp [resetEvents]
  · intro h1 h2 h3
    rw [h1, h2, h3]
    rfl
  · rcases hset : setup vr snr clockspeed with ⟨tr, res⟩
    rw [hset] at hf
    cases res with
    | error e => simp at hf
    | ok g => simp [reset_cmd, hset]

/-- Witness for `reset_cmd_one_pair` with a successful version query and no
reset flag. -/
theorem reset_cmd_one_pair_witness :
    ∃ pair,
      (reset_cmd (Except.ok 1) none none false false false).1
          = (setup (Except.ok 1) none none).1 ++ pair ++ cleanupEvents ∧
      (pair = [Event.debugReset, Event.go] ∨
        pair = [Event.pinReset, Event.go] ∨
        pair = [Event.sysReset, Event.go]) ∧
      (false = false → false = false → false = false →
        pair = [Event.sysReset, Event.go]) ∧
      (reset_cmd (Except.ok 1) none none false false false).2 = none :=
  reset_cmd_one_pair (Except.ok 1) none none false false false
    ⟨Family.nrf51, rfl⟩

/-- `_setup` never issues a `write_u32` call, whatever the query outcome. -/
theorem setup_no_word_write (vr : Except ApiError Nat)
    (snr clockspeed : Option Nat) :
    (setup vr snr clockspeed).1.countP isWriteU32 = 0 := by
  rcases vr with ⟨⟨ec⟩⟩ | v
  · rcases ec with _ | n <;> rfl
  · rfl

/-- Claim C10: in `memwr`, with `--flash` exactly one flash-targeted
`write_u32` is issued unconditionally; without it, an address below
`0x80000` raises the assertion before any write, and an address of at least
`0x80000` gets exactly one non-flash `write_u32`. -/
theorem memwr_behaviour (vr : Except ApiError Nat)
    (snr clockspeed : Option Nat) (flash : Bool) (addr val : Nat)
    (h : ∃ f, (setup vr snr clockspeed).2 = Except.ok f) :
    (flash = true →
      (memwr_cmd vr snr clockspeed flash addr val).1
          = (setup vr snr clockspeed).1 ++ [Event.writeU32 addr val true]
            ++ cleanupEvents ∧
      (memwr_cmd vr snr clockspeed flash addr val).2 = none ∧
      (memwr_cmd vr snr clockspeed flash addr val).1.countP isWriteU32 = 1) ∧
    (flash = false → addr < 0x80000 →
      (memwr_cmd vr snr clockspeed flash addr val).2
          = some CmdErr.flashAssertion ∧
      (memwr_cmd vr snr clockspeed flash addr val).1.countP isWriteU32 = 0) ∧
    (flash = false → 0x80000 ≤ addr →
      (memwr_cmd vr snr clockspeed flash addr val).1
          = (setup vr snr clockspeed).1 ++ [Event.writeU32 addr val false]
            ++ cleanupEvents ∧
      (memwr_cmd vr snr clockspeed flash addr val).2 = none ∧
      (memwr_cmd vr snr clockspeed flash addr val).1.countP isWriteU32 = 1) := by
  obtain ⟨f, hf⟩ := h
  rcases hset : setup vr snr clockspeed with ⟨tr, res⟩
  have htr : tr.countP isWriteU32 = 0 := by
    have hw := setup_no_word_write vr snr clockspeed
    rw [hset] at hw
    exact hw
  rw [hset] at hf
  cases res with
  | error e => simp at hf
  | ok g =>
    refine ⟨?_, ?_, ?_⟩
    · intro hfl
      subst hfl
      refine ⟨by simp [memwr_cmd, hset], by simp [memwr_cmd, hset], ?_⟩
      simp [memwr_cmd, hset, cleanupEvents, List.countP_append, htr,
        List.countP_cons, isWriteU32]
    · intro hfl haddr
      subst hfl
      have hlt : ¬ (0x80000 ≤ addr) := by omega
      refine ⟨by simp [memwr_cmd, hset, hlt], ?_⟩
      simp [memwr_cmd, hset, hlt, htr]
    · intro hfl haddr
      subst hfl
      refine ⟨by simp [memwr_cmd, hset, haddr], by simp [memwr_cmd, hset, haddr], ?_⟩
      simp [memwr_cmd, hset, haddr, cleanupEvents, List.countP_append, htr,
        List.countP_cons, isWriteU32]

/-- Witness for `memwr_behaviour`: non-flash write at `0x80000` succeeds with
exactly one word write, and a flash write at address 0 is unconditional. -/
theorem memwr_behaviour_witness :
    ((memwr_cmd (Except.ok 1) none none false 0x80000 7).2 = none ∧
      (memwr_cmd (Except.ok 1) none none false 0x80000 7).1.countP
        isWriteU32 = 1) ∧
    ((memwr_cmd (Except.ok 1) none none false 0x7FFFF 7).2
        = some CmdErr.flashAssertion) := by
  have h1 := memwr_behaviour (Except.ok 1) none none false 0x80000 7
    ⟨Family.nrf51, rfl⟩
  have h2 := memwr_behaviour (Except.ok 1) none none false 0x7FFFF 7
    ⟨Family.nrf51, rfl⟩
  exact ⟨⟨(h1.2.2 rfl (by decide)).2.1, (h1.2.2 rfl (by decide)).2.2⟩,
    (h2.2.1 rfl (by decide)).1⟩

/-- Claim C4: when the pre-write read-back of a segment's destination range
contains any byte other than `0xFF`, the programming loop stops right after
that read with the not-erased error: no write is issued for the segment and
no event of any later segment appears in the trace. -/
theorem program_not_erased {σ : Type} (d : Driver σ) (verify : Bool)
    (seg : Segment) (rest : List Segment) (s : σ) (tr : List Event)
    (h : ∃ b ∈ (d.read s seg.address seg.data.length).1, b ≠ 0xFF) :
    programSegments d verify (seg :: rest) s tr =
      (tr ++ [Event.readMem seg.address seg.data.length],
       (d.read s seg.address seg.data.length).2, some CmdErr.notErased) := by
  obtain ⟨b, hb, hbne⟩ := h
  have hne : ¬ ((d.read s seg.address seg.data.length).1
      = List.replicate (d.read s seg.address seg.data.length).1.length 0xFF) := by
    intro he
    exact hbne ((List.eq_replicate_iff.mp he).2 b hb)
  simp only [programSegments]
  rw [if_neg hne]

/-- Witness for `program_not_erased`: a driver reading `0x00` bytes makes the
loop fail on its first segment without writing. -/
theorem program_not_erased_witness :
    programSegments zeroDriver false [⟨0, [1]⟩] () [] =
      ([Event.readMem 0 1], (), some CmdErr.notErased) :=
  program_not_erased zeroDriver false ⟨0, [1]⟩ [] () [] (by decide)

/-- Claim C5: when a segment's pre-read is all `0xFF`, the write goes
through, and the verifying re-read differs from the segment's data at any
single index, the programming loop stops right after that re-read with the
verification-failed error. -/
theorem program_verify_mismatch {σ : Type} (d : Driver σ) (seg : Segment)
    (rest : List Segment) (s s1 s2 s3 : σ) (rd1 rd2 : List Nat)
    (h1 : d.read s seg.address seg.data.length = (rd1, s1))
    (hpre : rd1 = List.replicate rd1.length 0xFF)
    (h2 : d.write s1 seg.address seg.data true = s2)
    (h3 : d.read s2 seg.address seg.data.length = (rd2, s3))
    (i : Nat) (_hi1 : i < rd2.length) (_hi2 : i < seg.data.length)
    (hdiff : rd2.getD i 0 ≠ seg.data.getD i 0) (tr : List Event) :
    programSegments d true (seg :: rest) s tr =
      (tr ++ [Event.readMem seg.address seg.data.length,
              Event.writeMem seg.address seg.data true,
              Event.readMem seg.address seg.data.length],
       s3, some CmdErr.verificationFailed) := by
  have hne : ¬ (rd2 = seg.data) := by
    intro he
    rw [he] at hdiff
    exact hdiff rfl
  simp only [programSegments, h1, h2, h3]
  rw [if_pos hpre, if_pos trivial, if_neg hne]
  simp [List.append_assoc]

/-- Witness for `program_verify_mismatch`: a driver whose reads always
return `0xFF` passes the erased-check but fails verification of the data
byte `1`. -/
theorem program_verify_mismatch_witness :
    programSegments ffDriver true [⟨4, [1]⟩] () [] =
      ([Event.readMem 4 1, Event.writeMem 4 [1] true, Event.readMem 4 1],
       (), some CmdErr.verificationFailed) :=
  program_verify_mismatch ffDriver ⟨4, [1]⟩ [] () () () () [0xFF] [0xFF]
    rfl rfl rfl rfl 0 (by decide) (by decide) (by decide) []

/-- `_reset` issues no session open or close, whatever the flags. -/
theorem resetEvents_open_close (a b c dfl : Bool) :
    closes (resetEvents a b c dfl) = 0 ∧ opens (resetEvents a b c dfl) = 0 := by
  cases a <;> cases b <;> cases c <;> cases dfl <;> exact ⟨rfl, rfl⟩

/-- The programming loop issues only memory reads and writes: it neither
opens nor closes a session. -/
theorem programSegments_open_close {σ : Type} (d : Driver σ) (v : Bool)
    (segs : List Segment) :
    ∀ (s : σ) (tr : List Event),
      closes (programSegments d v segs s tr).1 = closes tr ∧
      opens (programSegments d v segs s tr).1 = opens tr := by
  induction segs with
  | nil => intro s tr; exact ⟨rfl, rfl⟩
  | cons seg rest ih =>
    intro s tr
    simp only [programSegments]
    split
    · split
      · split
        · refine ⟨((ih _ _).1).trans ?_, ((ih _ _).2).trans ?_⟩ <;>
            simp [closes, opens, List.countP_append, isCloseEvent, isOpenEvent]
        · constructor <;>
            simp [closes, opens, List.countP_append, isCloseEvent, isOpenEvent]
      · refine ⟨((ih _ _).1).trans ?_, ((ih _ _).2).trans ?_⟩ <;>
          simp [closes, opens, List.countP_append, isCloseEvent, isOpenEvent]
    · constructor <;>
        simp [closes, opens, List.countP_append, isCloseEvent, isOpenEvent]

/-- After `_setup` returns or raises, exactly one more session has been
opened than closed: the session handed to the caller on success, the leaked
handle on a propagated version-query error. -/
theorem setup_open_close (vr : Except ApiError Nat)
    (snr clockspeed : Option Nat) :
    closes (setup vr snr clockspeed).1 + 1 = opens (setup vr snr clockspeed).1 := by
  rcases vr with ⟨⟨ec⟩⟩ | v
  · rcases ec with _ | n <;> rfl
  · rfl

/-- Open/close balance of the post-erase part of `program`: on success the
final cleanup adds the single close; on an assertion failure the loop stops
and no close at all is issued. -/
theorem programBody_open_close {σ : Type} (d : Driver σ) (a : ProgramArgs)
    (segs : List Segment) (s0 : σ) (tr : List Event) :
    ((programBody d a segs s0 tr).2 = none →
      closes (programBody d a segs s0 tr).1 = closes tr + 1 ∧
      opens (programBody d a segs s0 tr).1 = opens tr) ∧
    (∀ e, (programBody d a segs s0 tr).2 = some e →
      closes (programBody d a segs s0 tr).1 = closes tr ∧
      opens (programBody d a segs s0 tr).1 = opens tr) := by
  have hloop := programSegments_open_close d a.verify segs s0 tr
  rcases hps : programSegments d a.verify segs s0 tr with ⟨tr1, s1, err⟩
  rw [hps] at hloop
  cases err with
  | some e =>
    refine ⟨fun hnone => ?_, fun e2 _ => ?_⟩
    · simp [programBody, hps] at hnone
    · simpa [programBody, hps] using hloop
  | none =>
    refine ⟨fun _ => ?_, fun e2 habs => ?_⟩
    · have hr := resetEvents_open_close a.debugreset a.pinreset a.systemreset false
      constructor
      · have h1 := hloop.1
        have h2 := hr.1
        have h3 : List.countP isCloseEvent cleanupEvents = 1 := rfl
        simp only [programBody, hps, closes, List.countP_append]
        simp only [closes] at h1 h2
        omega
      · have h1 := hloop.2
        have h2 := hr.2
        have h3 : List.countP isOpenEvent cleanupEvents = 0 := rfl
        simp only [programBody, hps, opens, List.countP_append]
        simp only [opens] at h1 h2
        omega
    · simp [programBody, hps] at habs

/-- Claim C2, counterexample: a `program` run whose first segment fails the
erased-flash precondition raises before `nrf.cleanup()`, so no session close
is issued at all — the open handle leaks rather than being closed once. -/
theorem program_leak_counterexample :
    (program_cmd (Except.ok 1) zeroDriver () argsNoFlags [⟨0, [1]⟩]).2
        = some CmdErr.notErased ∧
    closes (program_cmd (Except.ok 1) zeroDriver () argsNoFlags [⟨0, [1]⟩]).1
        = 0 ∧
    opens (program_cmd (Except.ok 1) zeroDriver () argsNoFlags [⟨0, [1]⟩]).1
        = 1 := by
  exact ⟨by decide, by decide, by decide⟩

/-- Claim C2, amended: on a `program` run that returns normally, every
session opened has been closed exactly once (opens equal closes, with the
final cleanup supplying the close of the active session); on any escaping
error — a propagated version-query failure, an unimplemented-erase assert, a
not-erased assert or a verification-failure assert — the cleanup is skipped
and exactly the active session leaks: closes fall short of opens by one. -/
theorem program_cmd_handle_balance {σ : Type} (vr : Except ApiError Nat)
    (d : Driver σ) (s0 : σ) (a : ProgramArgs) (segs : List Segment) :
    ((program_cmd vr d s0 a segs).2 = none →
      closes (program_cmd vr d s0 a segs).1
        = opens (program_cmd vr d s0 a segs).1) ∧
    (∀ e, (program_cmd vr d s0 a segs).2 = some e →
      closes (program_cmd vr d s0 a segs).1 + 1
        = opens (program_cmd vr d s0 a segs).1) := by
  have hsetup := setup_open_close vr a.snr a.clockspeed
  rcases hset : setup vr a.snr a.clockspeed with ⟨tr, res⟩
  rw [hset] at hsetup
  replace hsetup : closes tr + 1 = opens tr := hsetup
  cases res with
  | error e =>
    refine ⟨fun hnone => ?_, fun e2 _ => ?_⟩
    · simp [program_cmd, hset] at hnone
    · simpa [program_cmd, hset] using hsetup
  | ok g =>
    by_cases hea : a.eraseall
    · have hb := programBody_open_close d a segs s0 (tr ++ [Event.eraseAll])
      have htrc : closes (tr ++ [Event.eraseAll]) = closes tr := by
        simp [closes, List.countP_append, isCloseEvent]
      have htro : opens (tr ++ [Event.eraseAll]) = opens tr := by
        simp [opens, List.countP_append, isOpenEvent]
      refine ⟨fun hnone => ?_, fun e2 hsome => ?_⟩
      · simp only [program_cmd, hset, if_pos hea] at hnone ⊢
        have h1 := (hb.1 hnone).1
        have h2 := (hb.1 hnone).2
        omega
      · simp only [program_cmd, hset, if_pos hea] at hsome ⊢
        have h1 := (hb.2 e2 hsome).1
        have h2 := (hb.2 e2 hsome).2
        omega
    · by_cases hse : a.sectorserase
      · refine ⟨fun hnone => ?_, fun e2 _ => ?_⟩
        · simp only [program_cmd, hset, if_neg hea, if_pos hse] at hnone
          exact absurd hnone (by simp)
        · simp only [program_cmd, hset, if_neg hea, if_pos hse]
          exact hsetup
      · by_cases hsu : a.sectorsanduicrerase
        · refine ⟨fun hnone => ?_, fun e2 _ => ?_⟩
          · simp only [program_cmd, hset, if_neg hea, if_neg hse,
              if_pos hsu] at hnone
            exact absurd hnone (by simp)
          · simp only [program_cmd, hset, if_neg hea, if_neg hse, if_pos hsu]
            exact hsetup
        · have hb := programBody_open_close d a segs s0 tr
          refine ⟨fun hnone => ?_, fun e2 hsome => ?_⟩
          · simp only [program_cmd, hset, if_neg hea, if_neg hse,
              if_neg hsu] at hnone ⊢
            have h1 := (hb.1 hnone).1
            have h2 := (hb.1 hnone).2
            omega
          · simp only [program_cmd, hset, if_neg hea, if_neg hse,
              if_neg hsu] at hsome ⊢
            have h1 := (hb.2 e2 hsome).1
            have h2 := (hb.2 e2 hsome).2
            omega

/-- Witness for `program_cmd_handle_balance`: a run that succeeds (reads all
`0xFF`, no verify) balances opens and closes, and the not-erased failure of
the counterexample leaks exactly one handle. -/
theorem program_cmd_handle_balance_witness :
    closes (program_cmd (Except.ok 1) ffDriver () argsNoFlags [⟨0, [0xFF]⟩]).1
        = opens (program_cmd (Except.ok 1) ffDriver () argsNoFlags
            [⟨0, [0xFF]⟩]).1 ∧
    closes (program_cmd (Except.ok 1) zeroDriver () argsNoFlags [⟨8, [1]⟩]).1
        + 1
        = opens (program_cmd (Except.ok 1) zeroDriver () argsNoFlags
            [⟨8, [1]⟩]).1 :=
  ⟨(program_cmd_handle_balance (Except.ok 1) ffDriver () argsNoFlags
      [⟨0, [0xFF]⟩]).1 (by decide),
   (program_cmd_handle_balance (Except.ok 1) zeroDriver () argsNoFlags
      [⟨8, [1]⟩]).2 CmdErr.notErased (by decide)⟩

/-- Reading a list back by positions reconstructs the list. -/
theorem getD_range_map (l : List Nat) :
    ((List.range l.length).map fun i => l.getD i 0) = l := by
  induction l with
  | nil => rfl
  | cons x xs ih =>
    rw [List.length_cons, List.range_succ_eq_map, List.map_cons, List.map_map]
    have hc : ((fun i => (x :: xs).getD i 0) ∘ Nat.succ)
        = fun i => xs.getD i 0 := by
      funext i
      simp [List.getD_cons_succ]
    rw [hc, ih]
    rfl

/-- Reading back a just-written range of the faithful memory driver returns
exactly the written data. -/
theorem memDriver_read_write (s : Nat → Nat) (addr : Nat) (data : List Nat) :
    (memDriver.read (memWrite s addr data) addr data.length).1 = data := by
  show ((List.range data.length).map fun i => memWrite s addr data (addr + i))
      = data
  have h : ∀ i ∈ List.range data.length,
      memWrite s addr data (addr + i) = data.getD i 0 := by
    intro i hi
    rw [List.mem_range] at hi
    have hcond : addr ≤ addr + i ∧ addr + i < addr + data.length :=
      ⟨Nat.le_add_right addr i, Nat.add_lt_add_left hi addr⟩
    rw [memWrite, if_pos hcond, Nat.add_sub_cancel_left]
  rw [List.map_congr_left h]
  exact getD_range_map data

/-- Claim C9: a segment programmed successfully with verification enabled on
the faithful memory driver verifies successfully when the standalone verify
loop runs afterwards on the resulting memory state. -/
theorem verify_after_program (mem : Nat → Nat) (seg : Segment)
    (h : (programSegments memDriver true [seg] mem []).2.2 = none) :
    (verifySegments memDriver [seg]
        (programSegments memDriver true [seg] mem []).2.1 []).2.2 = none := by
  by_cases hpre : (memDriver.read mem seg.address seg.data.length).1
      = List.replicate (memDriver.read mem seg.address
          seg.data.length).1.length 0xFF
  · have hrw : (memDriver.read (memDriver.write
        (memDriver.read mem seg.address seg.data.length).2 seg.address
        seg.data true) seg.address seg.data.length).1 = seg.data :=
      memDriver_read_write mem seg.address seg.data
    have hprog : programSegments memDriver true [seg] mem [] =
        ([Event.readMem seg.address seg.data.length,
          Event.writeMem seg.address seg.data true,
          Event.readMem seg.address seg.data.length],
         memWrite mem seg.address seg.data, none) := by
      simp only [programSegments]
      rw [if_pos hpre, if_pos trivial, if_pos hrw]
      rfl
    rw [hprog]
    simp only [verifySegments]
    rw [if_pos (memDriver_read_write mem seg.address seg.data)]
  · exfalso
    have hprog : (programSegments memDriver true [seg] mem []).2.2
        = some CmdErr.notErased := by
      simp only [programSegments]
      rw [if_neg hpre]
    rw [hprog] at h
    exact Option.noConfusion h

/-- Witness for `verify_after_program`: an erased two-byte range at address
0, programmed with the bytes 1 and 2. -/
theorem verify_after_program_witness :
    (verifySegments memDriver [⟨0, [1, 2]⟩]
        (programSegments memDriver true [⟨0, [1, 2]⟩]
          (fun _ => 0xFF) []).2.1 []).2.2 = none :=
  verify_after_program (fun _ => 0xFF) ⟨0, [1, 2]⟩ (by decide)

end Nrf5x
